import Mathlib

/-!
Verification development for the SteamGuess raw-fetch pipeline
(`scripts/fetch_common.py`, `scripts/fetch_store_raw.py`,
`scripts/fetch_games.py`, `scripts/fetch_steamspy_raw.py`).

The Python code is shallowly embedded: JSON values become the inductive
type `Json` (JSON numbers are modelled as integers, the only kind the
pipeline produces or inspects), stateful loops become explicit state
passing, clock readings and random jitter become explicit parameters,
and code that can raise returns `Option`/`Except`.  Standard-library
services that the scripts merely call through (`json.loads` on a line,
`datetime.strptime`/`fromtimestamp` formatting, `str()` of a container)
are abstracted as parameters, so every theorem quantifies over all
implementations of those services.
-/

/-- A JSON value as produced by `json.loads`.  Numbers are modelled as
integers; object fields keep insertion order like Python dicts. -/
inductive Json where
  | null
  | bool (b : Bool)
  | num (n : Int)
  | str (s : String)
  | arr (xs : List Json)
  | obj (fields : List (String × Json))
deriving Repr

/-- `dict.get(key)` on a JSON object: the first binding of `key`
(`json.loads` never yields duplicate keys), `none` when the key is
absent or the value is not an object. -/
def Json.get? : Json → String → Option Json
  | .obj fields, key => (fields.find? (fun kv => kv.1 == key)).map (·.2)
  | _, _ => none

/-- Python truthiness of a JSON value (`bool(x)`): `None`, `False`, `0`,
`""`, `[]` and `{}` are falsy, everything else truthy. -/
def pyTruthy : Json → Bool
  | .null => false
  | .bool b => b
  | .num n => n != 0
  | .str s => s != ""
  | .arr xs => !xs.isEmpty
  | .obj fields => !fields.isEmpty

/-- Python's `"sub" in body` substring test. -/
def containsSubstring (needle haystack : String) : Bool :=
  haystack.data.tails.any (fun t => needle.data.isPrefixOf t)

/-- Digit run accepted by Python's `int(str)`: digits with single
underscores allowed between digits. -/
def pyIntDigits : List Char → Option Nat
  | [] => none
  | c :: cs => if c.isDigit then go (c.toNat - 48) cs else none
where
  go (acc : Nat) : List Char → Option Nat
    | [] => some acc
    | '_' :: c :: cs => if c.isDigit then go (acc * 10 + (c.toNat - 48)) cs else none
    | ['_'] => none
    | c :: cs => if c.isDigit then go (acc * 10 + (c.toNat - 48)) cs else none

/-- Python `str.strip()`: remove whitespace from both ends. -/
def pyStrip (s : String) : String :=
  String.mk ((s.data.dropWhile Char.isWhitespace).reverse.dropWhile Char.isWhitespace).reverse

/-- Python `int(s)` on a string: optional surrounding whitespace, an
optional sign, then digits; `none` models `ValueError`. -/
def pyIntOfString (s : String) : Option Int :=
  match (pyStrip s).data with
  | '+' :: rest => (pyIntDigits rest).map Int.ofNat
  | '-' :: rest => (pyIntDigits rest).map (fun n => -(n : Int))
  | rest => (pyIntDigits rest).map Int.ofNat

/-- Python `int(x)` on a JSON value: integers pass through, booleans
coerce to 0/1, strings are parsed; `None`, arrays and objects raise
(`none`). -/
def pyInt : Json → Option Int
  | .num n => some n
  | .bool b => some (if b then 1 else 0)
  | .str s => pyIntOfString s
  | _ => none

/-- `MAX_STORE_STRING_LENGTH` from `fetch_games.py`. -/
def MAX_STORE_STRING_LENGTH : Nat := 600

/-- `MAX_STORE_LIST_LENGTH` from `fetch_games.py`. -/
def MAX_STORE_LIST_LENGTH : Nat := 200

mutual

/-- `prune_store_payload` from `fetch_games.py` (the SizeCap transform).
`Json.null` plays the role of Python's `None`, which the code uses both
as the JSON null value and as its internal "dropped" marker. -/
def prune_store_payload : Json → Json
  | .obj fields => .obj (pruneStoreFields fields)
  | .arr xs =>
    if xs.length > MAX_STORE_LIST_LENGTH then .null
    else .arr (pruneStoreItems xs)
  | .str s => if s.length > MAX_STORE_STRING_LENGTH then .null else .str s
  | v => v

/-- The dict branch of `prune_store_payload`: keep `(k, cleaned)` only
when `cleaned is not None`. -/
def pruneStoreFields : List (String × Json) → List (String × Json)
  | [] => []
  | (k, v) :: fields =>
    match prune_store_payload v with
    | .null => pruneStoreFields fields
    | c => (k, c) :: pruneStoreFields fields

/-- The list branch of `prune_store_payload`: keep `cleaned` only when
`cleaned is not None`. -/
def pruneStoreItems : List Json → List Json
  | [] => []
  | x :: xs =>
    match prune_store_payload x with
    | .null => pruneStoreItems xs
    | c => c :: pruneStoreItems xs

end

/-- `FIELD_BLACKLIST` from `fetch_store_raw.py` (a Python set; only
membership is used, so a list suffices). -/
def FIELD_BLACKLIST : List String :=
  [ "data.detailed_description"
  , "data.about_the_game"
  , "data.short_description"
  , "data.extended_description"
  , "data.legal_notice" ]

mutual

/-- `drop_blacklisted_fields` from `fetch_store_raw.py` (the
PathBlacklist transform).  `path_parts` is the tuple of key names from
the payload root; `Json.null` doubles as Python's `None` marker. -/
def drop_blacklisted_fields (value : Json) (blacklist : List String)
    (path_parts : List String) : Json :=
  let current_path := String.intercalate "." path_parts
  if current_path != "" && blacklist.contains current_path then .null
  else
    match value with
    | .obj fields => .obj (dropBlFields fields blacklist path_parts)
    | .arr xs => .arr (dropBlItems xs blacklist path_parts)
    | v => v

/-- The dict branch of `drop_blacklisted_fields`: recurse with the key
appended to the path, keep the binding only when the child is not the
`None` marker. -/
def dropBlFields (fields : List (String × Json)) (blacklist : List String)
    (path_parts : List String) : List (String × Json) :=
  match fields with
  | [] => []
  | (k, v) :: rest =>
    match drop_blacklisted_fields v blacklist (path_parts ++ [k]) with
    | .null => dropBlFields rest blacklist path_parts
    | c => (k, c) :: dropBlFields rest blacklist path_parts

/-- The list branch of `drop_blacklisted_fields`: recurse with the same
path (arrays contribute no segment), keep non-`None` children. -/
def dropBlItems (xs : List Json) (blacklist : List String)
    (path_parts : List String) : List Json :=
  match xs with
  | [] => []
  | x :: rest =>
    match drop_blacklisted_fields x blacklist path_parts with
    | .null => dropBlItems rest blacklist path_parts
    | c => c :: dropBlItems rest blacklist path_parts

end

example : prune_store_payload (.obj [("a", .null), ("b", .num 3)]) = .obj [("b", .num 3)] := rfl

example :
    drop_blacklisted_fields
      (.obj [("data", .obj [("about_the_game", .str "x"), ("name", .str "y")])])
      ["data.about_the_game"] [] =
    .obj [("data", .obj [("name", .str "y")])] := rfl

mutual

/-- Spec-side statement of the PathBlacklist transform, written from the
spec's words for comparison with `drop_blacklisted_fields`: remove
exactly the nodes whose dotted path is in the blacklist (`none` marks a
removed node), arrays contribute no path segment, everything else is
kept. -/
def specDropBlacklisted (value : Json) (blacklist : List String)
    (path_parts : List String) : Option Json :=
  let current_path := String.intercalate "." path_parts
  if current_path != "" && blacklist.contains current_path then none
  else
    match value with
    | .obj fields => some (.obj (specDropFields fields blacklist path_parts))
    | .arr xs => some (.arr (specDropItems xs blacklist path_parts))
    | v => some v

/-- Field-wise removal for `specDropBlacklisted`: a binding disappears
exactly when its value's path is blacklisted. -/
def specDropFields (fields : List (String × Json)) (blacklist : List String)
    (path_parts : List String) : List (String × Json) :=
  match fields with
  | [] => []
  | (k, v) :: rest =>
    match specDropBlacklisted v blacklist (path_parts ++ [k]) with
    | none => specDropFields rest blacklist path_parts
    | some w => (k, w) :: specDropFields rest blacklist path_parts

/-- Element-wise removal for `specDropBlacklisted` at the array's own
path. -/
def specDropItems (xs : List Json) (blacklist : List String)
    (path_parts : List String) : List Json :=
  match xs with
  | [] => []
  | x :: rest =>
    match specDropBlacklisted x blacklist path_parts with
    | none => specDropItems rest blacklist path_parts
    | some w => w :: specDropItems rest blacklist path_parts

end

mutual

/-- A JSON value containing no `null` anywhere. -/
def Json.nullFree : Json → Bool
  | .null => false
  | .bool _ => true
  | .num _ => true
  | .str _ => true
  | .arr xs => nullFreeItems xs
  | .obj fields => nullFreeFields fields

/-- All elements of a list are `nullFree`. -/
def nullFreeItems : List Json → Bool
  | [] => true
  | x :: xs => x.nullFree && nullFreeItems xs

/-- All field values are `nullFree`. -/
def nullFreeFields : List (String × Json) → Bool
  | [] => true
  | (_, v) :: fs => v.nullFree && nullFreeFields fs

end

/-- Standard-library services used by the scripts, abstracted: the
formatted output of `datetime.fromtimestamp(..).strftime("%Y-%m-%d")`,
the formatted output of `datetime.strptime(raw, fmt)` (`none` models
`ValueError`), and `str()` applied to a list or dict. -/
structure StdlibOracle where
  fromtimestampFmt : Int → String
  strptimeFmt : String → String → Option String
  strOfContainer : Json → String

/-- Python `str(x)` on a JSON value. -/
def pyStr (lib : StdlibOracle) : Json → String
  | .str s => s
  | .num n => toString n
  | .bool b => if b then "True" else "False"
  | .null => "None"
  | v => lib.strOfContainer v

/-- The `candidates` format list of `normalize_date` in
`fetch_common.py`. -/
def DATE_FORMAT_CANDIDATES : List String :=
  ["%Y-%m-%d", "%d %b, %Y", "%b %d, %Y", "%d %B, %Y", "%B %d, %Y", "%Y/%m/%d", "%m/%d/%Y"]

/-- `normalize_date` from `fetch_common.py`.  Booleans take Python's
numeric branch because `bool` is a subclass of `int`. -/
def normalize_date (lib : StdlibOracle) (date_text : Json) : String :=
  match date_text with
  | .null => ""
  | .num n => if n ≤ 0 then "" else lib.fromtimestampFmt n
  | .bool b => if b then lib.fromtimestampFmt 1 else ""
  | other =>
    let raw := pyStrip (pyStr lib other)
    if raw = "" then ""
    else
      let lowered := raw.toLower
      if lowered = "coming soon" ∨ lowered = "to be announced" ∨ lowered = "tba" ∨ lowered = "soon" then ""
      else (DATE_FORMAT_CANDIDATES.findSome? (fun fmt => lib.strptimeFmt raw fmt)).getD raw

/-- `fetch_store_meta` from `fetch_store_raw.py`, applied to the JSON
value the HTTP layer returned: `payload if isinstance(payload, dict)
else {}`. -/
def fetch_store_meta (response : Json) : Json :=
  match response with
  | .obj fields => .obj fields
  | _ => .obj []

/-- `build_store_record` from `fetch_store_raw.py`, as a function of the
store response for this appid; `none` models `return None` (the NoData
outcome). -/
def build_store_record (lib : StdlibOracle) (appid : Int) (response : Json) : Option Json :=
  let store_all := fetch_store_meta response
  let store_one := (store_all.get? (toString appid)).getD (.obj [])
  match store_one with
  | .obj fields =>
    let store_one := Json.obj fields
    if !pyTruthy ((store_one.get? "success").getD .null) then none
    else
      let payload := drop_blacklisted_fields store_one FIELD_BLACKLIST []
      let data :=
        match payload with
        | .obj _ => (payload.get? "data").getD (.obj [])
        | _ => .obj []
      let name :=
        match data with
        | .obj _ =>
          let nv := (data.get? "name").getD .null
          pyStr lib (if pyTruthy nv then nv else .str "")
        | _ => ""
      let release_raw :=
        match data with
        | .obj _ =>
          match (data.get? "release_date").getD .null with
          | .obj rfields =>
            let d := ((Json.obj rfields).get? "date").getD .null
            pyStr lib (if pyTruthy d then d else .str "")
          | .null => ""
          | v => pyStr lib v
        | _ => ""
      some (.obj [(toString appid, .obj
        [ ("appId", .num appid)
        , ("name", .str name)
        , ("releaseDate", .str (normalize_date lib (.str release_raw)))
        , ("payload", payload) ])])
  | _ => none

/-- `load_local_appids` from `fetch_common.py`, as a function of the
parsed appid-list document; `Except.error` models the `ValueError` on an
unsupported shape, and entries on which `int()` raises are skipped. -/
def load_local_appids (doc : Json) : Except String (List Int) :=
  let sourceOpt : Option (List Json) :=
    match doc with
    | .obj fields =>
      match (Json.obj fields).get? "appids" with
      | some (.arr xs) => some xs
      | _ => none
    | .arr xs => some xs
    | _ => none
  match sourceOpt with
  | none => .error "appid list file must be a dict with appids or a plain list"
  | some source => .ok (source.filterMap pyInt)

/-- One stripped line of an existing output file, at the granularity the
resume scan observes it: blank after `strip()`, not parseable by
`json.loads` (which raises), or parseable to a JSON value. -/
inductive ScanLine where
  | blank
  | bad
  | ok (j : Json)

/-- The identifier one line contributes to the done-set: the line must
parse to a single-key object and `int(key)` must succeed; any other
line (blank, malformed, wrong shape, non-coercible key) contributes
nothing. -/
def scanLineDone : ScanLine → Option Int
  | .blank => none
  | .bad => none
  | .ok j =>
    match j with
    | .obj [(key, _)] => pyIntOfString key
    | _ => none

/-- `load_done_appids_from_jsonl` from `fetch_common.py`, over the lines
of an existing file. -/
def load_done_appids_from_jsonl (lines : List ScanLine) : Finset Int :=
  lines.foldl
    (fun done l =>
      match scanLineDone l with
      | some n => insert n done
      | none => done)
    ∅

/-- The same scan including the `path.exists()` guard: a missing file
(`none`) yields the empty done-set. -/
def load_done_from_file : Option (List ScanLine) → Finset Int
  | none => ∅
  | some lines => load_done_appids_from_jsonl lines

/-- The resume filter in `main` of `fetch_store_raw.py` /
`fetch_steamspy_raw.py` / `fetch_games.py`: when the done-set is
non-empty, keep only appids not already done (the guard is observably
redundant for an empty set). -/
def resumePending (appids : List Int) (done : Finset Int) : List Int :=
  if done.Nonempty then appids.filter (fun a => decide (a ∉ done)) else appids

/-- `write_mode = "a" if args.resume else "w"` from the fetch mains. -/
def writeMode (resume : Bool) : String := if resume then "a" else "w"

/-- `RateLimiter` from `fetch_common.py` / `fetch_games.py`, with the
monotonic clock made explicit. -/
structure RateLimiter where
  min_interval : ℚ
  last_ts : ℚ

/-- `RateLimiter.wait`: `now` is the `time.monotonic()` reading on
entry, `after_sleep` the reading taken after the (possible) sleep; the
call returns the amount slept and stores `after_sleep` as the new
last-request time. -/
def RateLimiter.wait (rl : RateLimiter) (now after_sleep : ℚ) : ℚ × RateLimiter :=
  let delta := now - rl.last_ts
  let waited := if delta < rl.min_interval then rl.min_interval - delta else 0
  (waited, { rl with last_ts := after_sleep })

/-- Outcome of one HTTP attempt as `urlopen` reports it: a 2xx response
body, an `HTTPError` with a status code, or a `URLError`. -/
inductive AttemptOutcome where
  | body (s : String)
  | httpError (code : Nat)
  | urlError

/-- Result of one logical `http_get_json` call: parsed JSON, an
`HTTPError` propagated on a fatal status, or the final `RuntimeError`
carrying the url and the retry bound. -/
inductive FetchResult where
  | success (j : Json)
  | fatalHttp (code : Nat)
  | exhausted (url : String) (retries : Nat)

/-- The transient status set `(429, 500, 502, 503, 504)`. -/
def TRANSIENT_HTTP_CODES : List Nat := [429, 500, 502, 503, 504]

/-- Python `max(a, b)` on floats. -/
def pyMax (a b : ℚ) : ℚ := if a < b then b else a

/-- The retry loop shared by `http_get_json` in `fetch_common.py` and in
`fetch_games.py` (identical code except for the marker-floor constant,
here the parameter `markerFloor`).  `parse` stands for `json.loads`,
`outcomes` gives each attempt's HTTP outcome, `jitterHalf` and
`jitterTwo` are the attempt's `random.random() * 0.5` and
`random.random() * 2.0` draws.  The result is paired with the list of
backoff sleeps performed, in order.  `remaining` counts the attempts the
`range(retries)` loop still has; `backoff` starts at 1.0 and doubles
after every transient failure. -/
def httpLoop (parse : String → Option Json) (outcomes : Nat → AttemptOutcome)
    (jitterHalf jitterTwo : Nat → ℚ) (markerFloor : ℚ) (url : String) (retries : Nat) :
    Nat → Nat → ℚ → FetchResult × List ℚ
  | 0, _, _ => (.exhausted url retries, [])
  | remaining + 1, attempt, backoff =>
    match outcomes attempt with
    | .body s =>
      match parse s with
      | some j => (.success j, [])
      | none =>
        let sleepA := backoff + jitterHalf attempt
        let sleepFor :=
          if containsSubstring "Too many connections" s
          then pyMax sleepA (markerFloor + jitterTwo attempt)
          else sleepA
        let rest := httpLoop parse outcomes jitterHalf jitterTwo markerFloor url retries
          remaining (attempt + 1) (backoff * 2)
        (rest.1, sleepFor :: rest.2)
    | .httpError c =>
      if TRANSIENT_HTTP_CODES.contains c then
        let rest := httpLoop parse outcomes jitterHalf jitterTwo markerFloor url retries
          remaining (attempt + 1) (backoff * 2)
        (rest.1, (backoff + jitterHalf attempt) :: rest.2)
      else (.fatalHttp c, [])
    | .urlError =>
      let rest := httpLoop parse outcomes jitterHalf jitterTwo markerFloor url retries
        remaining (attempt + 1) (backoff * 2)
      (rest.1, (backoff + jitterHalf attempt) :: rest.2)

/-- The marker floor `60.0 + random.random() * 2.0` base in
`fetch_common.py`. -/
def COMMON_MARKER_FLOOR : ℚ := 60

/-- The marker floor `5.0 + random.random() * 2.0` base in
`fetch_games.py`. -/
def GAMES_MARKER_FLOOR : ℚ := 5

/-- `http_get_json` from `fetch_common.py`. -/
def http_get_json (parse : String → Option Json) (outcomes : Nat → AttemptOutcome)
    (jitterHalf jitterTwo : Nat → ℚ) (url : String) (retries : Nat) : FetchResult × List ℚ :=
  httpLoop parse outcomes jitterHalf jitterTwo COMMON_MARKER_FLOOR url retries retries 0 1

/-- `http_get_json` from `fetch_games.py` (same loop, 5-second marker
floor). -/
def games_http_get_json (parse : String → Option Json) (outcomes : Nat → AttemptOutcome)
    (jitterHalf jitterTwo : Nat → ℚ) (url : String) (retries : Nat) : FetchResult × List ℚ :=
  httpLoop parse outcomes jitterHalf jitterTwo GAMES_MARKER_FLOOR url retries retries 0 1

/-- The run counters and the records appended to the output file, in
order. -/
structure RunResult where
  okCount : Nat
  skipCount : Nat
  errCount : Nat
  written : List Json

/-- One iteration of the fetch loop in `main` of `fetch_store_raw.py`:
`build` is `build_store_record` behind its network calls — `Except.error`
models a raised exception, `Except.ok none` the NoData outcome, and
`Except.ok (some record)` a record to append. -/
def fetchStep (build : Int → Except Unit (Option Json)) (st : RunResult) (appid : Int) : RunResult :=
  match build appid with
  | .error _ => { st with errCount := st.errCount + 1 }
  | .ok none => { st with skipCount := st.skipCount + 1 }
  | .ok (some record) => { st with okCount := st.okCount + 1, written := st.written ++ [record] }

/-- The fetch loop of `main` over the pending appid list, starting from
zero counters and an (logically) empty tail of the output file. -/
def fetchRun (build : Int → Except Unit (Option Json)) (appids : List Int) : RunResult :=
  appids.foldl (fetchStep build) ⟨0, 0, 0, []⟩

/-- The key of a persisted record (a single-key JSON object). -/
def recordKey : Json → Option String
  | .obj [(k, _)] => some k
  | _ => none

/-- Whether one loop iteration appends a record. -/
def buildSucceeds (r : Except Unit (Option Json)) : Bool :=
  match r with
  | .ok (some _) => true
  | _ => false

/-- Whether one loop iteration hits the NoData branch. -/
def buildSkips (r : Except Unit (Option Json)) : Bool :=
  match r with
  | .ok none => true
  | _ => false

/-- Whether one loop iteration raises. -/
def buildFails (r : Except Unit (Option Json)) : Bool :=
  match r with
  | .error _ => true
  | _ => false

/-- The record one loop iteration appends, if any. -/
def buildRecord (r : Except Unit (Option Json)) : Option Json :=
  match r with
  | .ok (some record) => some record
  | _ => none

/-- A 601-character string, strictly above the store string cap. -/
def longTestString : String := String.mk (List.replicate 601 'a')

/-- A 600-character string, exactly at the store string cap. -/
def capTestString : String := String.mk (List.replicate 600 'a')

/-- An attempt outcome the retry loop treats as transient: a 2xx body
that fails to parse, a status in the transient set, or a transport
error. -/
def transientOutcome (parse : String → Option Json) : AttemptOutcome → Prop
  | .body s => parse s = none
  | .httpError c => c ∈ TRANSIENT_HTTP_CODES
  | .urlError => True

/-- Store responses for the end-to-end scenario of spec §8: success for
every appid except 20, which carries the failure flag. -/
def scenarioResponse (appid : Int) : Json :=
  if appid = 20 then .obj [(toString appid, .obj [("success", .bool false)])]
  else .obj [(toString appid, .obj [("success", .bool true)])]

/-- The fetch loop's view of `build_store_record` under the §8 scenario
responses: every fetch succeeds at the HTTP level, so no exception is
ever raised. -/
def scenarioBuild (lib : StdlibOracle) (appid : Int) : Except Unit (Option Json) :=
  .ok (build_store_record lib appid (scenarioResponse appid))

/-- The record `build_store_record` produces for a successful §8
scenario appid. -/
def storeRecordFor (appid : Int) : Json :=
  .obj [(toString appid, .obj
    [ ("appId", .num appid)
    , ("name", .str "")
    , ("releaseDate", .str "")
    , ("payload", .obj [("success", .bool true)]) ])]

/-- A build oracle that always succeeds and writes a record keyed by
the appid, like `build_store_record` does. -/
def dupBuild (appid : Int) : Except Unit (Option Json) :=
  .ok (some (.obj [(toString appid, .bool true)]))

lemma pruneStoreFields_eq_filterMap (fields : List (String × Json)) :
    pruneStoreFields fields =
      fields.filterMap (fun kv =>
        match prune_store_payload kv.2 with
        | .null => none
        | c => some (kv.1, c)) := by
  induction fields with
  | nil => rfl
  | cons kv rest ih =>
    obtain ⟨k, v⟩ := kv
    rw [pruneStoreFields, List.filterMap_cons]
    cases h : prune_store_payload v <;> simp [h, ih]

/-- C8 counterexample: a null child is neither a string over the
character cap nor an array over the length cap, yet
`prune_store_payload` drops it — `{"a": null}` becomes `{}` — so the
transform does not drop only the offending (overlong) children. -/
theorem prune_store_payload_drops_null_child :
    prune_store_payload (.obj [("a", .null)]) = .obj [] ∧
    Json.obj ([] : List (String × Json)) ≠ .obj [("a", .null)] :=
  ⟨rfl, by simp⟩

/-- C8 (amended): the SizeCap transform (`prune_store_payload`) drops a
string strictly longer than the 600-character cap by omitting its
containing key, keeps a 600-character string unchanged, drops entirely
an array strictly longer than the 200-element cap (again omitting a
containing key), and recurses into objects key-by-key, keeping exactly
the children whose pruned value is not the dropped marker — so beside
the overlong children it also drops every null child, which is not
overlong (see the counterexample). -/
theorem prune_store_payload_sizeCap :
    (∀ (k s : String) (fields : List (String × Json)),
        MAX_STORE_STRING_LENGTH < s.length →
        pruneStoreFields ((k, .str s) :: fields) = pruneStoreFields fields) ∧
    (∀ s : String, s.length = MAX_STORE_STRING_LENGTH →
        prune_store_payload (.str s) = .str s) ∧
    (∀ (k : String) (xs : List Json) (fields : List (String × Json)),
        MAX_STORE_LIST_LENGTH < xs.length →
        prune_store_payload (.arr xs) = .null ∧
        pruneStoreFields ((k, .arr xs) :: fields) = pruneStoreFields fields) ∧
    (∀ fields : List (String × Json),
        prune_store_payload (.obj fields) = .obj (pruneStoreFields fields)) ∧
    (∀ fields : List (String × Json),
        pruneStoreFields fields =
          fields.filterMap (fun kv =>
            match prune_store_payload kv.2 with
            | .null => none
            | c => some (kv.1, c))) := by
  refine ⟨?_, ?_, ?_, ?_, pruneStoreFields_eq_filterMap⟩
  · intro k s fields h
    rw [pruneStoreFields]
    have hs : prune_store_payload (.str s) = .null := by
      simp [prune_store_payload, h]
    simp [hs]
  · intro s h
    simp [prune_store_payload, h]
  · intro k xs fields h
    have hx : prune_store_payload (.arr xs) = .null := by
      simp [prune_store_payload, h]
    refine ⟨hx, ?_⟩
    rw [pruneStoreFields]
    simp [hx]
  · intro fields
    rfl

/-- Closed instance of `prune_store_payload_sizeCap`: a 601-character
string's key is omitted, a 600-character string is kept, a 201-element
array is dropped. -/
theorem prune_store_payload_sizeCap_witness :
    pruneStoreFields [("k", Json.str longTestString)] = pruneStoreFields [] ∧
    prune_store_payload (.str capTestString) = .str capTestString ∧
    prune_store_payload (.arr (List.replicate 201 (Json.num 0))) = .null := by
  refine ⟨prune_store_payload_sizeCap.1 "k" longTestString [] ?_,
          prune_store_payload_sizeCap.2.1 capTestString ?_,
          (prune_store_payload_sizeCap.2.2.1 "k" (List.replicate 201 (Json.num 0)) [] ?_).1⟩
  · set_option maxRecDepth 10000 in decide
  · set_option maxRecDepth 10000 in decide
  · set_option maxRecDepth 10000 in decide

/-- C10: both payload transforms use `None` as the internal dropped
marker, so a JSON null is always removed: an object binding whose value
is null disappears, and a null array element disappears, under both
`prune_store_payload` and `drop_blacklisted_fields` (any blacklist, any
path). -/
theorem transforms_remove_null :
    (∀ (k : String) (fields : List (String × Json)),
        pruneStoreFields ((k, .null) :: fields) = pruneStoreFields fields) ∧
    (∀ xs : List Json, pruneStoreItems (.null :: xs) = pruneStoreItems xs) ∧
    (∀ (k : String) (fields : List (String × Json)) (bl path : List String),
        dropBlFields ((k, .null) :: fields) bl path = dropBlFields fields bl path) ∧
    (∀ (xs : List Json) (bl path : List String),
        dropBlItems (.null :: xs) bl path = dropBlItems xs bl path) := by
  have hnull : ∀ (bl path : List String), drop_blacklisted_fields .null bl path = .null := by
    intro bl path
    rw [drop_blacklisted_fields]
    · exact ite_self _
    · intro fields h
      exact Json.noConfusion h
    · intro xs h
      exact Json.noConfusion h
  refine ⟨fun k fields => rfl, fun xs => rfl, fun k fields bl path => ?_, fun xs bl path => ?_⟩
  · rw [dropBlFields, hnull]
  · rw [dropBlItems, hnull]

/-- C5 counterexample: `load_local_appids` does not de-duplicate — the
bare-list document `[1, 1]` loads to `[1, 1]`, not `[1]`. -/
theorem load_local_appids_keeps_duplicates :
    load_local_appids (.arr [.num 1, .num 1]) = .ok [1, 1] ∧
    ([1, 1] : List Int) ≠ [1] := by
  exact ⟨rfl, by simp⟩

/-- C5 (amended): for either supported document shape the loader
returns the same integer sequence, in original order, silently dropping
non-integer-coercible entries — but duplicates are kept, not removed.
The closed clause shows order preservation and the dropping of a
non-numeric string and a null while keeping a coercible string and a
boolean. -/
theorem load_local_appids_shape_indifferent :
    (∀ items : List Json,
        load_local_appids (.obj [("appids", .arr items)]) = .ok (items.filterMap pyInt) ∧
        load_local_appids (.arr items) = .ok (items.filterMap pyInt)) ∧
    load_local_appids (.arr [.str " 12 ", .null, .bool true, .num 3, .str "x"]) =
      .ok [12, 1, 3] := by
  exact ⟨fun items => ⟨rfl, rfl⟩, rfl⟩

lemma load_done_foldl (lines : List ScanLine) :
    ∀ acc : Finset Int,
      lines.foldl
        (fun done l =>
          match scanLineDone l with
          | some n => insert n done
          | none => done) acc =
      acc ∪ (lines.filterMap scanLineDone).toFinset := by
  induction lines with
  | nil => intro acc; simp
  | cons l rest ih =>
    intro acc
    rw [List.foldl_cons, List.filterMap_cons]
    cases h : scanLineDone l with
    | none => simp [h, ih]
    | some n =>
      simp only [h, ih, List.toFinset_cons]
      rw [Finset.insert_union, Finset.union_insert]

/-- C6: the resume scan is a total function of the file's lines — a
missing file yields the empty done-set, a trailing malformed
(truncated) line changes nothing, and in general the done-set is
exactly the set of identifiers of the lines that parse to a single-key
object with an integer-coercible key; every other line is skipped
without aborting the scan. -/
theorem load_done_appids_spec :
    load_done_from_file none = (∅ : Finset Int) ∧
    (∀ lines : List ScanLine,
        load_done_appids_from_jsonl (lines ++ [.bad]) = load_done_appids_from_jsonl lines) ∧
    (∀ lines : List ScanLine,
        load_done_appids_from_jsonl lines = (lines.filterMap scanLineDone).toFinset) := by
  have hchar : ∀ lines : List ScanLine,
      load_done_appids_from_jsonl lines = (lines.filterMap scanLineDone).toFinset := by
    intro lines
    rw [load_done_appids_from_jsonl, load_done_foldl]
    simp
  refine ⟨rfl, ?_, hchar⟩
  intro lines
  rw [hchar, hchar]
  simp [scanLineDone]

/-- C7: with the monotonic clock explicit (`t1` the reading at entry to
the first `wait`, `t2` the reading after its sleep, similarly `t3`,
`t4` for a second `wait` on the updated limiter), `wait` sleeps exactly
the remaining part of the interval when called early and not at all
otherwise, stores the post-sleep reading as the new last-request time,
and two consecutive returns are separated by at least the interval. -/
theorem rateLimiter_wait_spec (I last t1 t2 t3 t4 : ℚ) (hI : 0 < I)
    (hs1 : t1 + (RateLimiter.wait ⟨I, last⟩ t1 t2).1 ≤ t2)
    (hmono : t2 ≤ t3)
    (hs2 : t3 + ((RateLimiter.wait ⟨I, last⟩ t1 t2).2.wait t3 t4).1 ≤ t4) :
    (t1 - last < I → (RateLimiter.wait ⟨I, last⟩ t1 t2).1 = I - (t1 - last)) ∧
    (I ≤ t1 - last → (RateLimiter.wait ⟨I, last⟩ t1 t2).1 = 0) ∧
    (RateLimiter.wait ⟨I, last⟩ t1 t2).2.last_ts = t2 ∧
    t2 + I ≤ t4 := by
  refine ⟨fun h => by simp [RateLimiter.wait, if_pos h], fun h => by simp [RateLimiter.wait, not_lt.mpr h], rfl, ?_⟩
  simp only [RateLimiter.wait] at hs2
  split at hs2 <;> [skip; rename_i h] <;> linarith [hs2]

/-- Closed instance of `rateLimiter_wait_spec` with interval 2: the
first call at time 1 (last request at 0) sleeps 1 and returns at 2; the
second call at 2.5 sleeps 1.5 and returns at 4 = 2 + 2. -/
theorem rateLimiter_wait_spec_witness :
    ((1 : ℚ) - 0 < 2 → (RateLimiter.wait ⟨2, 0⟩ 1 2).1 = 2 - (1 - 0)) ∧
    ((2 : ℚ) ≤ 1 - 0 → (RateLimiter.wait ⟨2, 0⟩ 1 2).1 = 0) ∧
    (RateLimiter.wait ⟨2, 0⟩ 1 2).2.last_ts = 2 ∧
    (2 : ℚ) + 2 ≤ 4 :=
  rateLimiter_wait_spec 2 0 1 2 (5/2) 4 (by norm_num)
    (by norm_num [RateLimiter.wait]) (by norm_num) (by norm_num [RateLimiter.wait])

lemma fetchRun_foldl (build : Int → Except Unit (Option Json)) (appids : List Int) :
    ∀ st : RunResult,
      appids.foldl (fetchStep build) st =
        ⟨ st.okCount + appids.countP (fun a => buildSucceeds (build a))
        , st.skipCount + appids.countP (fun a => buildSkips (build a))
        , st.errCount + appids.countP (fun a => buildFails (build a))
        , st.written ++ appids.filterMap (fun a => buildRecord (build a)) ⟩ := by
  induction appids with
  | nil => intro st; simp
  | cons a rest ih =>
    intro st
    rw [List.foldl_cons, ih]
    cases h : build a with
    | error e =>
      simp [fetchStep, h, buildSucceeds, buildSkips, buildFails, buildRecord,
        List.countP_cons, List.filterMap_cons, RunResult.mk.injEq]
      omega
    | ok r =>
      cases r with
      | none =>
        simp [fetchStep, h, buildSucceeds, buildSkips, buildFails, buildRecord,
          List.countP_cons, List.filterMap_cons, RunResult.mk.injEq]
        omega
      | some record =>
        simp [fetchStep, h, buildSucceeds, buildSkips, buildFails, buildRecord,
          List.countP_cons, List.filterMap_cons, RunResult.mk.injEq]
        omega

lemma fetchRun_char (build : Int → Except Unit (Option Json)) (appids : List Int) :
    fetchRun build appids =
      ⟨ appids.countP (fun a => buildSucceeds (build a))
      , appids.countP (fun a => buildSkips (build a))
      , appids.countP (fun a => buildFails (build a))
      , appids.filterMap (fun a => buildRecord (build a)) ⟩ := by
  rw [fetchRun, fetchRun_foldl]
  simp

lemma outcome_trichotomy (build : Int → Except Unit (Option Json)) (appids : List Int) :
    appids.countP (fun a => buildSucceeds (build a)) +
      appids.countP (fun a => buildSkips (build a)) +
      appids.countP (fun a => buildFails (build a)) = appids.length := by
  induction appids with
  | nil => rfl
  | cons a rest ih =>
    cases h : build a with
    | error e =>
      have e1 : buildSucceeds (Except.error e : Except Unit (Option Json)) = false := rfl
      have e2 : buildSkips (Except.error e : Except Unit (Option Json)) = false := rfl
      have e3 : buildFails (Except.error e : Except Unit (Option Json)) = true := rfl
      simp only [List.countP_cons, h, List.length_cons, e1, e2, e3]
      simp only [Bool.false_eq_true, if_false, if_true]
      omega
    | ok r =>
      cases r with
      | none =>
        have e1 : buildSucceeds (Except.ok (none : Option Json) : Except Unit (Option Json)) = false := rfl
        have e2 : buildSkips (Except.ok (none : Option Json) : Except Unit (Option Json)) = true := rfl
        have e3 : buildFails (Except.ok (none : Option Json) : Except Unit (Option Json)) = false := rfl
        simp only [List.countP_cons, h, List.length_cons, e1, e2, e3]
        simp only [Bool.false_eq_true, if_false, if_true]
        omega
      | some record =>
        have e1 : buildSucceeds (Except.ok (some record) : Except Unit (Option Json)) = true := rfl
        have e2 : buildSkips (Except.ok (some record) : Except Unit (Option Json)) = false := rfl
        have e3 : buildFails (Except.ok (some record) : Except Unit (Option Json)) = false := rfl
        simp only [List.countP_cons, h, List.length_cons, e1, e2, e3]
        simp only [Bool.false_eq_true, if_false, if_true]
        omega

/-- C1: the fetch loop of `main` visits the pending identifiers in
order; each identifier contributes to exactly one of the three
counters — ok with a record appended, skip with nothing written, err on
an exception with the loop continuing — so the counters sum to the list
length and the output is exactly the successful records in list order.
Instantiated to the §8 scenario (`[10, 20, 30]`, success for 10 and 30,
failure flag for 20, any stdlib behaviour), the run writes exactly the
records keyed "10" and "30" and reports ok=2, skip=1, err=0. -/
theorem fetch_run_spec :
    (∀ (build : Int → Except Unit (Option Json)) (appids : List Int),
      fetchRun build appids =
        ⟨ appids.countP (fun a => buildSucceeds (build a))
        , appids.countP (fun a => buildSkips (build a))
        , appids.countP (fun a => buildFails (build a))
        , appids.filterMap (fun a => buildRecord (build a)) ⟩ ∧
      appids.countP (fun a => buildSucceeds (build a)) +
        appids.countP (fun a => buildSkips (build a)) +
        appids.countP (fun a => buildFails (build a)) = appids.length) ∧
    (∀ lib : StdlibOracle,
      fetchRun (scenarioBuild lib) [10, 20, 30] =
        ⟨2, 1, 0, [storeRecordFor 10, storeRecordFor 30]⟩ ∧
      (fetchRun (scenarioBuild lib) [10, 20, 30]).written.filterMap recordKey = ["10", "30"]) := by
  refine ⟨fun build appids => ⟨fetchRun_char build appids, outcome_trichotomy build appids⟩, fun lib => ⟨?_, ?_⟩⟩
  · rfl
  · rfl

lemma resumePending_eq_filter (appids : List Int) (done : Finset Int) :
    resumePending appids done = appids.filter (fun a => decide (a ∉ done)) := by
  rw [resumePending]
  split
  · rfl
  · rename_i h
    have hd : done = ∅ := Finset.not_nonempty_iff_eq_empty.mp h
    subst hd
    symm
    apply List.filter_eq_self.mpr
    intro a _
    simp

lemma load_done_mem (lines : List ScanLine) (a : Int) :
    a ∈ load_done_appids_from_jsonl lines ↔ a ∈ lines.filterMap scanLineDone := by
  rw [load_done_appids_from_jsonl, load_done_foldl]
  simp

lemma not_mem_resumePending (appids : List Int) (done : Finset Int) (a : Int)
    (ha : a ∈ done) : a ∉ resumePending appids done := by
  rw [resumePending_eq_filter]
  intro hmem
  have := (List.mem_filter.mp hmem).2
  simp at this
  exact this ha

lemma written_keys (build : Int → Except Unit (Option Json))
    (hkey : ∀ a r, build a = .ok (some r) → recordKey r = some (toString a)) :
    ∀ appids : List Int,
      (fetchRun build appids).written.filterMap recordKey =
        (appids.filter (fun a => buildSucceeds (build a))).map toString := by
  intro appids
  rw [fetchRun_char]
  induction appids with
  | nil => rfl
  | cons a rest ih =>
    rw [List.filterMap_cons, List.filter_cons]
    cases h : build a with
    | error e =>
      have e1 : buildRecord (Except.error e : Except Unit (Option Json)) = none := rfl
      have e2 : buildSucceeds (Except.error e : Except Unit (Option Json)) = false := rfl
      simp only [e1, e2, Bool.false_eq_true, if_false]
      exact ih
    | ok r =>
      cases r with
      | none =>
        have e1 : buildRecord (Except.ok (none : Option Json) : Except Unit (Option Json)) = none := rfl
        have e2 : buildSucceeds (Except.ok (none : Option Json) : Except Unit (Option Json)) = false := rfl
        simp only [e1, e2, Bool.false_eq_true, if_false]
        exact ih
      | some record =>
        have e1 : buildRecord (Except.ok (some record) : Except Unit (Option Json)) = some record := rfl
        have e2 : buildSucceeds (Except.ok (some record) : Except Unit (Option Json)) = true := rfl
        simp only [e1, e2, if_true, List.filterMap_cons, List.map_cons]
        rw [hkey a record h]
        exact congrArg _ ih

lemma final_count_le_one (appids : List Int) (lines : List ScanLine)
    (build : Int → Except Unit (Option Json))
    (hnd : appids.Nodup)
    (hprior : ∀ i : Int, (lines.filterMap scanLineDone).count i ≤ 1) (i : Int) :
    ((lines.filterMap scanLineDone) ++
      (resumePending appids (load_done_appids_from_jsonl lines)).filter
        (fun a => buildSucceeds (build a))).count i ≤ 1 := by
  rw [List.count_append]
  by_cases hi : i ∈ lines.filterMap scanLineDone
  · have hidone : i ∈ load_done_appids_from_jsonl lines := (load_done_mem lines i).mpr hi
    have hw : i ∉ resumePending appids (load_done_appids_from_jsonl lines) :=
      not_mem_resumePending appids _ i hidone
    have hz : ((resumePending appids (load_done_appids_from_jsonl lines)).filter
        (fun a => buildSucceeds (build a))).count i = 0 := by
      apply List.count_eq_zero.mpr
      intro hmem
      exact hw (List.mem_of_mem_filter hmem)
    have := hprior i
    omega
  · have hz : (lines.filterMap scanLineDone).count i = 0 := List.count_eq_zero.mpr hi
    have hWnd : ((resumePending appids (load_done_appids_from_jsonl lines)).filter
        (fun a => buildSucceeds (build a))).Nodup := by
      rw [resumePending_eq_filter]
      exact (hnd.filter _).filter _
    have := List.nodup_iff_count_le_one.mp hWnd i
    omega

/-- C2 (amended): resuming removes from the pending list exactly the
identifiers in the done-set computed from the existing file, preserving
the order of the rest, and the output opens in append mode, so a
recorded identifier is never fetched again; the written records are
keyed by their identifiers; and the final file (prior records plus the
run's records, at identifier granularity) has at most one record per
identifier provided the identifier list has no duplicates and the prior
file itself had at most one record per identifier — without those
provisos the loader's lack of de-duplication can produce duplicate
records (see the counterexample). -/
theorem resume_spec :
    ∀ (appids : List Int) (lines : List ScanLine) (build : Int → Except Unit (Option Json)),
      resumePending appids (load_done_appids_from_jsonl lines) =
        appids.filter (fun a => decide (a ∉ load_done_appids_from_jsonl lines)) ∧
      writeMode true = "a" ∧
      (∀ a ∈ load_done_appids_from_jsonl lines,
        a ∉ resumePending appids (load_done_appids_from_jsonl lines)) ∧
      ((∀ a r, build a = .ok (some r) → recordKey r = some (toString a)) →
        (fetchRun build (resumePending appids (load_done_appids_from_jsonl lines))).written.filterMap recordKey =
          ((resumePending appids (load_done_appids_from_jsonl lines)).filter
            (fun a => buildSucceeds (build a))).map toString) ∧
      (appids.Nodup →
        (∀ i : Int, (lines.filterMap scanLineDone).count i ≤ 1) →
        ∀ i : Int,
          ((lines.filterMap scanLineDone) ++
            (resumePending appids (load_done_appids_from_jsonl lines)).filter
              (fun a => buildSucceeds (build a))).count i ≤ 1) := by
  intro appids lines build
  refine ⟨resumePending_eq_filter appids _, rfl,
    fun a ha => not_mem_resumePending appids _ a ha,
    fun hkey => written_keys build hkey _,
    fun hnd hprior i => final_count_le_one appids lines build hnd hprior i⟩

/-- C2 counterexample: with the duplicate identifier list `[5, 5]` and
no prior output, a resume run fetches 5 twice and the final file holds
two records keyed "5" — the "at most one record per identifier"
conclusion of the claim fails for identifier lists with duplicates
(the loader does not de-duplicate). -/
theorem resume_spec_counterexample :
    resumePending [5, 5] (load_done_appids_from_jsonl []) = [5, 5] ∧
    (fetchRun dupBuild (resumePending [5, 5] (load_done_appids_from_jsonl []))).written.filterMap recordKey = ["5", "5"] ∧
    ((List.filterMap scanLineDone ([] : List ScanLine)) ++
      (resumePending [5, 5] (load_done_appids_from_jsonl [])).filter
        (fun a => buildSucceeds (dupBuild a))).count 5 = 2 ∧
    ¬ (2 ≤ 1) := by
  refine ⟨rfl, rfl, ?_, by omega⟩
  rfl

/-- Closed instance of `resume_spec`: identifier list `[1, 2, 3]` with a
prior file recording identifier 2, an always-succeeding keyed build —
the written keys are the filtered pending list's keys, and identifier 1
occurs at most once in the final file. -/
theorem resume_spec_witness :
    ((fetchRun dupBuild (resumePending [1, 2, 3]
        (load_done_appids_from_jsonl [ScanLine.ok (.obj [("2", .null)])]))).written.filterMap recordKey =
      ((resumePending [1, 2, 3]
        (load_done_appids_from_jsonl [ScanLine.ok (.obj [("2", .null)])])).filter
          (fun a => buildSucceeds (dupBuild a))).map toString) ∧
    (([ScanLine.ok (.obj [("2", .null)])].filterMap scanLineDone) ++
      (resumePending [1, 2, 3]
        (load_done_appids_from_jsonl [ScanLine.ok (.obj [("2", .null)])])).filter
          (fun a => buildSucceeds (dupBuild a))).count 1 ≤ 1 := by
  have h := resume_spec [1, 2, 3] [ScanLine.ok (.obj [("2", .null)])] dupBuild
  have hprior : ∀ i : Int,
      (List.filterMap scanLineDone [ScanLine.ok (Json.obj [("2", Json.null)])]).count i ≤ 1 := by
    intro i
    exact List.count_le_length i (List.filterMap scanLineDone [ScanLine.ok (Json.obj [("2", Json.null)])])
  exact ⟨h.2.2.2.1 (fun a r hr => by cases hr; rfl),
         h.2.2.2.2 (by decide) hprior 1⟩

lemma httpLoop_exhausted (parse : String → Option Json) (outcomes : Nat → AttemptOutcome)
    (j1 j2 : Nat → ℚ) (fb : ℚ) (url : String) (retries : Nat) :
    ∀ (remaining attempt : Nat) (backoff : ℚ),
      (∀ k, k < remaining → transientOutcome parse (outcomes (attempt + k))) →
      (httpLoop parse outcomes j1 j2 fb url retries remaining attempt backoff).1 =
        .exhausted url retries := by
  intro remaining
  induction remaining with
  | zero => intro attempt b _; rfl
  | succ r ih =>
    intro attempt b h
    have h0 := h 0 (by omega)
    rw [Nat.add_zero] at h0
    have hrest : ∀ k, k < r → transientOutcome parse (outcomes (attempt + 1 + k)) := by
      intro k hk
      have := h (k + 1) (by omega)
      rwa [show attempt + (k + 1) = attempt + 1 + k by omega] at this
    rw [httpLoop]
    cases ho : outcomes attempt with
    | body s =>
      rw [ho] at h0
      have hp : parse s = none := h0
      simp only [hp]
      exact ih (attempt + 1) (b * 2) hrest
    | httpError c =>
      rw [ho] at h0
      have hc : c ∈ TRANSIENT_HTTP_CODES := h0
      have hcb : TRANSIENT_HTTP_CODES.contains c = true := by simp [hc]
      simp only [hcb, if_true]
      exact ih (attempt + 1) (b * 2) hrest
    | urlError =>
      exact ih (attempt + 1) (b * 2) hrest

/-- C3: in one `http_get_json` attempt (either fetcher, any marker
floor), a transient status (429, 500, 502, 503, 504) makes the loop
sleep `backoff + jitter`, double the backoff and continue with the next
attempt; any other `HTTPError` status is propagated at once with no
recursion and no sleep; and when every attempt up to the retry bound is
transient, the call fails with the error carrying the url and the
attempt bound. -/
theorem http_retry_classification :
    (∀ (parse : String → Option Json) (outcomes : Nat → AttemptOutcome)
       (j1 j2 : Nat → ℚ) (fb : ℚ) (url : String) (retries r attempt : Nat) (b : ℚ) (c : Nat),
      outcomes attempt = .httpError c →
      c ∈ TRANSIENT_HTTP_CODES →
      httpLoop parse outcomes j1 j2 fb url retries (r + 1) attempt b =
        ((httpLoop parse outcomes j1 j2 fb url retries r (attempt + 1) (b * 2)).1,
          (b + j1 attempt) ::
            (httpLoop parse outcomes j1 j2 fb url retries r (attempt + 1) (b * 2)).2)) ∧
    (∀ (parse : String → Option Json) (outcomes : Nat → AttemptOutcome)
       (j1 j2 : Nat → ℚ) (fb : ℚ) (url : String) (retries r attempt : Nat) (b : ℚ) (c : Nat),
      outcomes attempt = .httpError c →
      c ∉ TRANSIENT_HTTP_CODES →
      httpLoop parse outcomes j1 j2 fb url retries (r + 1) attempt b = (.fatalHttp c, [])) ∧
    (∀ (parse : String → Option Json) (outcomes : Nat → AttemptOutcome)
       (j1 j2 : Nat → ℚ) (fb : ℚ) (url : String) (retries : Nat),
      (∀ i, i < retries → transientOutcome parse (outcomes i)) →
      (httpLoop parse outcomes j1 j2 fb url retries retries 0 1).1 =
        .exhausted url retries) := by
  refine ⟨?_, ?_, ?_⟩
  · intro parse outcomes j1 j2 fb url retries r attempt b c ho hc
    have hcb : TRANSIENT_HTTP_CODES.contains c = true := by simp [hc]
    rw [httpLoop, ho]
    simp only [hcb, if_true]
  · intro parse outcomes j1 j2 fb url retries r attempt b c ho hc
    have hcb : TRANSIENT_HTTP_CODES.contains c = false := by simp [hc]
    rw [httpLoop, ho]
    simp only [hcb, Bool.false_eq_true, if_false]
  · intro parse outcomes j1 j2 fb url retries h
    apply httpLoop_exhausted
    intro k hk
    have := h k hk
    rwa [Nat.zero_add]

/-- Closed instance of `http_retry_classification`: with two attempts, a
constant 500 outcome takes the transient branch, a constant 404 outcome
is fatal at once, and an all-transport-error run exhausts the retry
budget. -/
theorem http_retry_classification_witness :
    (httpLoop (fun _ => none) (fun _ => .httpError 500) (fun _ => 0) (fun _ => 0) 60 "u" 2 2 0 1 =
      ((httpLoop (fun _ => none) (fun _ => .httpError 500) (fun _ => 0) (fun _ => 0) 60 "u" 2 1 1 (1 * 2)).1,
        ((1 : ℚ) + 0) ::
          (httpLoop (fun _ => none) (fun _ => .httpError 500) (fun _ => 0) (fun _ => 0) 60 "u" 2 1 1 (1 * 2)).2)) ∧
    (httpLoop (fun _ => none) (fun _ => .httpError 404) (fun _ => 0) (fun _ => 0) 60 "u" 2 2 0 1 =
      (.fatalHttp 404, [])) ∧
    (httpLoop (fun _ => none) (fun _ => .urlError) (fun _ => 0) (fun _ => 0) 60 "u" 2 2 0 1).1 =
      .exhausted "u" 2 := by
  refine ⟨http_retry_classification.1 (fun _ => none) (fun _ => .httpError 500)
      (fun _ => 0) (fun _ => 0) 60 "u" 2 1 0 1 500 rfl (by decide),
    http_retry_classification.2.1 (fun _ => none) (fun _ => .httpError 404)
      (fun _ => 0) (fun _ => 0) 60 "u" 2 1 0 1 404 rfl (by decide),
    http_retry_classification.2.2 (fun _ => none) (fun _ => .urlError)
      (fun _ => 0) (fun _ => 0) 60 "u" 2 (fun i _ => trivial)⟩

/-- C4 (amended): when a 2xx body fails to parse and contains the
source rate-limit marker "Too many connections", the attempt's backoff
sleep is floored at the fetcher's marker floor plus jitter regardless
of the computed exponential backoff — and that floor is 60 seconds
(tens of seconds) in `fetch_common.py`'s fetcher but only 5 seconds in
`fetch_games.py`'s copy. -/
theorem marker_floor_spec :
    ∀ (parse : String → Option Json) (outcomes : Nat → AttemptOutcome)
      (j1 j2 : Nat → ℚ) (fb : ℚ) (url : String) (retries r attempt : Nat) (b : ℚ) (s : String),
      outcomes attempt = .body s →
      parse s = none →
      containsSubstring "Too many connections" s = true →
      (httpLoop parse outcomes j1 j2 fb url retries (r + 1) attempt b =
        ((httpLoop parse outcomes j1 j2 fb url retries r (attempt + 1) (b * 2)).1,
          pyMax (b + j1 attempt) (fb + j2 attempt) ::
            (httpLoop parse outcomes j1 j2 fb url retries r (attempt + 1) (b * 2)).2)) ∧
      (0 ≤ j2 attempt → fb = COMMON_MARKER_FLOOR →
        60 ≤ pyMax (b + j1 attempt) (fb + j2 attempt)) ∧
      (0 ≤ j2 attempt → fb = GAMES_MARKER_FLOOR →
        5 ≤ pyMax (b + j1 attempt) (fb + j2 attempt)) := by
  intro parse outcomes j1 j2 fb url retries r attempt b s ho hp hm
  refine ⟨?_, ?_, ?_⟩
  · rw [httpLoop, ho]
    simp only [hp, hm, if_true]
  · intro hj hfb
    subst hfb
    rw [COMMON_MARKER_FLOOR, pyMax]
    split <;> linarith
  · intro hj hfb
    subst hfb
    rw [GAMES_MARKER_FLOOR, pyMax]
    split <;> linarith

/-- C4 counterexample: in `fetch_games.py`'s fetcher the marker floor
is 5 seconds — with zero jitter and initial backoff the chosen sleep is
exactly 5, which is not "tens of seconds" (not at least 10). -/
theorem marker_floor_counterexample :
    (games_http_get_json (fun _ => none) (fun _ => .body "Too many connections")
        (fun _ => 0) (fun _ => 0) "u" 2).2.head? = some 5 ∧
    ¬ ((10 : ℚ) ≤ 5) := by
  constructor
  · have hm : containsSubstring "Too many connections" "Too many connections" = true := by decide
    rw [games_http_get_json, httpLoop]
    simp only [hm, if_true]
    simp only [List.head?_cons, Option.some.injEq]
    norm_num [pyMax, GAMES_MARKER_FLOOR]
  · norm_num

/-- Closed instance of `marker_floor_spec`: the marker attempt's sleep
under the `fetch_common.py` floor is `pyMax (1 + 0) (60 + 0)` and is at
least 60; the same attempt under the `fetch_games.py` floor yields a
sleep of at least 5. -/
theorem marker_floor_spec_witness :
    (httpLoop (fun _ => none) (fun _ => .body "Too many connections")
        (fun _ => 0) (fun _ => 0) 60 "u" 2 2 0 1 =
      ((httpLoop (fun _ => none) (fun _ => .body "Too many connections")
          (fun _ => 0) (fun _ => 0) 60 "u" 2 1 1 (1 * 2)).1,
        pyMax ((1 : ℚ) + 0) (60 + 0) ::
          (httpLoop (fun _ => none) (fun _ => .body "Too many connections")
            (fun _ => 0) (fun _ => 0) 60 "u" 2 1 1 (1 * 2)).2)) ∧
    (60 : ℚ) ≤ pyMax ((1 : ℚ) + 0) (60 + 0) ∧
    (5 : ℚ) ≤ pyMax ((1 : ℚ) + 0) (5 + 0) := by
  have hm : containsSubstring "Too many connections" "Too many connections" = true := by decide
  have h60 := marker_floor_spec (fun _ => none) (fun _ => .body "Too many connections")
    (fun _ => 0) (fun _ => 0) 60 "u" 2 1 0 1 "Too many connections" rfl rfl hm
  have h5 := marker_floor_spec (fun _ => none) (fun _ => .body "Too many connections")
    (fun _ => 0) (fun _ => 0) 5 "u" 2 1 0 1 "Too many connections" rfl rfl hm
  exact ⟨h60.1, h60.2.1 (by norm_num) rfl, h5.2.2 (by norm_num) rfl⟩

mutual

theorem dropBlSpecVal : ∀ (v : Json) (bl p : List String), v.nullFree = true →
    (specDropBlacklisted v bl p = none → drop_blacklisted_fields v bl p = .null) ∧
    (∀ w, specDropBlacklisted v bl p = some w →
      drop_blacklisted_fields v bl p = w ∧ w ≠ .null)
  | .null, bl, p, hv => by simp [Json.nullFree] at hv
  | .bool b, bl, p, _ => by
    by_cases hc : (String.intercalate "." p != "" &&
        bl.contains (String.intercalate "." p)) = true <;>
      simp [specDropBlacklisted, drop_blacklisted_fields, hc]
  | .num n, bl, p, _ => by
    by_cases hc : (String.intercalate "." p != "" &&
        bl.contains (String.intercalate "." p)) = true <;>
      simp [specDropBlacklisted, drop_blacklisted_fields, hc]
  | .str s, bl, p, _ => by
    by_cases hc : (String.intercalate "." p != "" &&
        bl.contains (String.intercalate "." p)) = true <;>
      simp [specDropBlacklisted, drop_blacklisted_fields, hc]
  | .arr xs, bl, p, hv => by
    have hxs : nullFreeItems xs = true := by
      rw [Json.nullFree] at hv
      exact hv
    have hitems := dropBlSpecItems xs bl p hxs
    by_cases hc : (String.intercalate "." p != "" &&
        bl.contains (String.intercalate "." p)) = true <;>
      simp [specDropBlacklisted, drop_blacklisted_fields, hc, hitems]
  | .obj fields, bl, p, hv => by
    have hfs : nullFreeFields fields = true := by
      rw [Json.nullFree] at hv
      exact hv
    have hflds := dropBlSpecFieldsThm fields bl p hfs
    by_cases hc : (String.intercalate "." p != "" &&
        bl.contains (String.intercalate "." p)) = true <;>
      simp [specDropBlacklisted, drop_blacklisted_fields, hc, hflds]
  termination_by v _ _ _ => sizeOf v

theorem dropBlSpecItems : ∀ (xs : List Json) (bl p : List String),
    nullFreeItems xs = true → dropBlItems xs bl p = specDropItems xs bl p
  | [], _, _, _ => rfl
  | x :: rest, bl, p, h => by
    rw [nullFreeItems, Bool.and_eq_true] at h
    have hv := dropBlSpecVal x bl p h.1
    have ih := dropBlSpecItems rest bl p h.2
    rw [dropBlItems, specDropItems]
    cases hs : specDropBlacklisted x bl p with
    | none =>
      simp only [hv.1 hs]
      exact ih
    | some w =>
      obtain ⟨hd, hw⟩ := hv.2 w hs
      simp only [hd]
      cases w
      case null => exact absurd rfl hw
      all_goals simp [ih]
  termination_by xs _ _ _ => sizeOf xs

theorem dropBlSpecFieldsThm : ∀ (fields : List (String × Json)) (bl p : List String),
    nullFreeFields fields = true → dropBlFields fields bl p = specDropFields fields bl p
  | [], _, _, _ => rfl
  | (k, v) :: rest, bl, p, h => by
    rw [nullFreeFields, Bool.and_eq_true] at h
    have hv := dropBlSpecVal v bl (p ++ [k]) h.1
    have ih := dropBlSpecFieldsThm rest bl p h.2
    rw [dropBlFields, specDropFields]
    cases hs : specDropBlacklisted v bl (p ++ [k]) with
    | none =>
      simp only [hv.1 hs]
      exact ih
    | some w =>
      obtain ⟨hd, hw⟩ := hv.2 w hs
      simp only [hd]
      cases w
      case null => exact absurd rfl hw
      all_goals simp [ih]
  termination_by fields _ _ _ => sizeOf fields

end

/-- C9 counterexample: with an empty blacklist (so no path matches),
the claim's "removes exactly the blacklisted nodes" requires the
payload `{"a": null}` to pass through unchanged, but
`drop_blacklisted_fields` also strips the null binding. -/
theorem drop_blacklisted_removes_nonblacklisted_null :
    drop_blacklisted_fields (.obj [("a", .null)]) [] [] = .obj [] ∧
    Json.obj ([] : List (String × Json)) ≠ .obj [("a", .null)] :=
  ⟨rfl, by simp⟩

/-- C9 (amended): on null-free payloads `drop_blacklisted_fields`
removes exactly the nodes whose dotted path from the root is in the
blacklist, with array elements sharing their array's path — stated by
agreement with the spec-side `specDropBlacklisted` — and the concrete
example holds; on payloads containing nulls it additionally removes
every null (the internal dropped marker, see the counterexample). -/
theorem drop_blacklisted_fields_spec :
    (∀ (v : Json) (bl : List String), v.nullFree = true →
        drop_blacklisted_fields v bl [] = (specDropBlacklisted v bl []).getD .null) ∧
    drop_blacklisted_fields
      (.obj [("data", .obj [("about_the_game", .str "x"), ("name", .str "y")])])
      ["data.about_the_game"] [] =
    .obj [("data", .obj [("name", .str "y")])] := by
  constructor
  · intro v bl hv
    have h := dropBlSpecVal v bl [] hv
    cases hs : specDropBlacklisted v bl [] with
    | none =>
      rw [h.1 hs]
      rfl
    | some w =>
      rw [(h.2 w hs).1]
      rfl
  · rfl

/-- Closed instance of `drop_blacklisted_fields_spec`: on the null-free
payload `{"data": {"name": "y"}}` the transform agrees with the
spec-side removal. -/
theorem drop_blacklisted_fields_spec_witness :
    drop_blacklisted_fields (.obj [("data", .obj [("name", .str "y")])])
        ["data.about_the_game"] [] =
      (specDropBlacklisted (.obj [("data", .obj [("name", .str "y")])])
        ["data.about_the_game"] []).getD .null :=
  drop_blacklisted_fields_spec.1 (.obj [("data", .obj [("name", .str "y")])])
    ["data.about_the_game"] (by decide)
